import Mathlib

/-!
Verification of the cellular uplink subsystem of the arduino/speedometer
repository.  The definitions below are shallow embeddings of the Python
source under `src/`:

* the SQLite-backed store-and-forward queue of
  `application/raspberry-pi/firebase_client.py` (table `sensor_data`,
  columns `id, firebase_doc_id, timestamp, device_id, speed, pulse_count,
  latitude, longitude, battery_level, signal_strength, sent, retry_count,
  created_at`) and its drain pass `FirebaseClient.sync_buffered_data`;
* the corresponding queue of
  `application/raspberry-pi/cellular_data_client.py` (no retry counter)
  and its drain pass `CellularDataClient.sync_buffered_data`;
* the local-store operation `store_data_locally` of both clients;
* the speed computation of `monitor_speed`;
* the JSON payload builders (flat dict for the cellular client, Firestore
  document for the Firebase client);
* the AT/HTTP command traces of `CellularDataClient.send_http_request`
  and `FirebaseClient.send_http_via_sim`;
* the command/response polling loops of `waveshare_sms.py`
  (`send_at_command`) and
  `application/raspberry-pi/test_sim7070g_internet.py` (`send_at_command`);
* the signal-quality parser `FirebaseClient.get_signal_strength`.

Numeric SQLite `REAL` columns and Python floats are modelled as rationals;
Python dictionaries that become JSON are modelled by an explicit `Json`
inductive; the serial port is modelled as a scripted transcript of read
results plus a log of issued commands.
-/

namespace Uplink

/-! Character-list string processing.  Python `in`, `strip()`,
`split(sep)[i]`, `startswith` and `int()` are modelled by structurally
recursive functions over `List Char` so that every definition evaluates
inside the kernel. -/

/-- `pat` is a prefix of `l`. -/
def prefTok : List Char → List Char → Bool
  | [], _ => true
  | _ :: _, [] => false
  | a :: as, b :: bs => a == b && prefTok as bs

/-- The suffix of `l` after the first occurrence of `pat`, when `pat`
occurs in `l`. -/
def afterTok (pat : List Char) : List Char → Option (List Char)
  | [] => if pat.isEmpty then some [] else none
  | c :: rest =>
    if prefTok pat (c :: rest) then some (List.drop pat.length (c :: rest))
    else afterTok pat rest

/-- The prefix of `l` before the first occurrence of `pat` (all of `l`
when `pat` does not occur): Python `l.split(pat)[0]`. -/
def beforeTok (pat : List Char) : List Char → List Char
  | [] => []
  | c :: rest =>
    if prefTok pat (c :: rest) then []
    else c :: beforeTok pat rest

/-- Python `needle in haystack` substring test. -/
def hasToken (hay pat : String) : Bool :=
  (afterTok pat.data hay.data).isSome

/-- Python `s.startswith(pre)`. -/
def startsTok (s pre : String) : Bool :=
  prefTok pre.data s.data

/-- Whitespace for Python `strip()` (the characters that occur in modem
traffic). -/
def isSpaceC (c : Char) : Bool :=
  c == ' ' || c == '\t' || c == '\n' || c == '\r'

def trimLeftL : List Char → List Char
  | [] => []
  | c :: rest => if isSpaceC c then trimLeftL rest else c :: rest

/-- Python `s.strip()` on a character list. -/
def trimL (l : List Char) : List Char :=
  (trimLeftL (trimLeftL l.reverse).reverse)

/-- Python `s.strip()`. -/
def trimS (s : String) : String :=
  String.mk (trimL s.data)

/-- Decimal digit run: `some value` iff the list is nonempty and all
digits. -/
def digAux : List Char → Nat → Option Nat
  | [], acc => some acc
  | c :: rest, acc =>
    if 48 ≤ c.toNat && c.toNat ≤ 57 then digAux rest (acc * 10 + (c.toNat - 48))
    else none

def digitsVal : List Char → Option Nat
  | [] => none
  | l => digAux l 0

/-! ## The durable queue of the Firebase client

`firebase_client.py`, table `sensor_data`.  The payload columns of a row are
collected in `FBRow`; the delivery metadata (`sent`, `retry_count`) and
ordering columns (`id`, `created_at`) live in `FBEntry`. -/

/-- Payload columns of a `sensor_data` row in `firebase_client.py`. -/
structure FBRow where
  timestamp : String
  device_id : String
  speed : ℚ
  pulse_count : Int
  latitude : Option ℚ
  longitude : Option ℚ
  battery_level : Option ℚ
  signal_strength : Option Int
  deriving DecidableEq, Repr

/-- One row of the `sensor_data` table of `firebase_client.py`:
payload plus primary key, `firebase_doc_id`, delivery status `sent`,
`retry_count` and `created_at`. -/
structure FBEntry where
  id : Nat
  firebase_doc_id : Option String
  row : FBRow
  sent : Bool
  retry_count : Nat
  created_at : Nat
  deriving DecidableEq, Repr

/-- The whole local buffer: the list of rows of `sensor_data`. -/
abbrev FBQueue := List FBEntry

/-- The `WHERE sent = FALSE AND retry_count < 5` filter of
`FirebaseClient.sync_buffered_data`. -/
def fbPending (e : FBEntry) : Bool :=
  !e.sent && e.retry_count < 5

/-- `ORDER BY created_at` comparison. -/
def fbLE (a b : FBEntry) : Prop :=
  a.created_at ≤ b.created_at

instance : DecidableRel fbLE := fun a b => Nat.decLe a.created_at b.created_at

instance : IsTotal FBEntry fbLE :=
  ⟨fun a b => Nat.le_total a.created_at b.created_at⟩

instance : IsTrans FBEntry fbLE :=
  ⟨fun _ _ _ h h2 => Nat.le_trans h h2⟩

/-- The SELECT of `FirebaseClient.sync_buffered_data`:
`SELECT * FROM sensor_data WHERE sent = FALSE AND retry_count < 5
ORDER BY created_at LIMIT 10`. -/
def fbFetch (q : FBQueue) : List FBEntry :=
  ((q.filter fbPending).insertionSort fbLE).take 10

/-- `UPDATE sensor_data SET sent = TRUE WHERE id = ?` applied to one row. -/
def fbMarkRow (i : Nat) (e : FBEntry) : FBEntry :=
  if e.id = i then { e with sent := true } else e

/-- `UPDATE sensor_data SET sent = TRUE WHERE id = ?`. -/
def fbMarkSent (i : Nat) (q : FBQueue) : FBQueue :=
  q.map (fbMarkRow i)

/-- `UPDATE sensor_data SET retry_count = retry_count + 1 WHERE id = ?`
applied to one row. -/
def fbRetryRow (i : Nat) (e : FBEntry) : FBEntry :=
  if e.id = i then { e with retry_count := e.retry_count + 1 } else e

/-- `UPDATE sensor_data SET retry_count = retry_count + 1 WHERE id = ?`. -/
def fbIncRetry (i : Nat) (q : FBQueue) : FBQueue :=
  q.map (fbRetryRow i)

/-- The row loop of `FirebaseClient.sync_buffered_data`: for each fetched
row, attempt delivery (`send_to_firebase`, abstracted as the oracle
`send`); on success mark the row sent and continue, on the first failure
increment its retry count and `break`. -/
def fbProcess (send : FBEntry → Bool) : List FBEntry → FBQueue → FBQueue
  | [], q => q
  | e :: rest, q =>
    if send e then fbProcess send rest (fbMarkSent e.id q)
    else fbIncRetry e.id q

/-- One full drain pass of `FirebaseClient.sync_buffered_data`. -/
def fbDrain (send : FBEntry → Bool) (q : FBQueue) : FBQueue :=
  fbProcess send (fbFetch q) q

/-- Instrumented row loop: additionally returns the list of entries on
which a delivery attempt was made, in order. -/
def fbProcessTrace (send : FBEntry → Bool) :
    List FBEntry → FBQueue → FBQueue × List FBEntry
  | [], q => (q, [])
  | e :: rest, q =>
    if send e then
      let r := fbProcessTrace send rest (fbMarkSent e.id q)
      (r.1, e :: r.2)
    else (fbIncRetry e.id q, [e])

/-- Repeated drain passes; pass `n` uses delivery oracle `sends n`. -/
def fbIter (sends : Nat → FBEntry → Bool) : Nat → FBQueue → FBQueue
  | 0, q => q
  | n + 1, q => fbIter (fun i => sends (i + 1)) n (fbDrain (sends 0) q)

/-- The queue records the entry with primary key `i` as sent. -/
def fbIdSent (q : FBQueue) (i : Nat) : Bool :=
  q.any (fun e => e.id == i && e.sent)

/-- Some row with primary key `i` exists. -/
def fbHasId (q : FBQueue) (i : Nat) : Bool :=
  q.any (fun e => e.id == i)

/-- First row with primary key `i`, the row a SQL `WHERE id = ?` hits. -/
def fbFindId (q : FBQueue) (i : Nat) : Option FBEntry :=
  q.find? (fun e => e.id == i)

/-- Remaining-attempt weight of a row: `5 - retry_count` while the row is
pending, `0` once it is sent or abandoned (`retry_count ≥ 5`). -/
def fbWt (e : FBEntry) : Nat :=
  if fbPending e then 5 - e.retry_count else 0

/-- Total remaining-attempt weight of the queue; every drain pass that
still finds pending work strictly decreases it. -/
def fbMeasure (q : FBQueue) : Nat :=
  (q.map fbWt).sum

/-- Every row of the queue is terminal: delivered (`sent`) or abandoned
(`retry_count ≥ 5`, excluded from every future fetch). -/
def fbAllTerminal (q : FBQueue) : Prop :=
  ∀ e ∈ q, e.sent = true ∨ 5 ≤ e.retry_count

instance (q : FBQueue) : Decidable (fbAllTerminal q) :=
  List.decidableBAll _ q

/-! ## The durable queue of the cellular client

`cellular_data_client.py`, table `sensor_data`: columns `id, timestamp,
device_id, speed, pulse_count, latitude, longitude, sent, created_at`.
There is no `retry_count` column and the SELECT has no LIMIT. -/

/-- Payload columns of a `sensor_data` row in `cellular_data_client.py`. -/
structure CRow where
  timestamp : String
  device_id : String
  speed : ℚ
  pulse_count : Int
  latitude : Option ℚ
  longitude : Option ℚ
  deriving DecidableEq, Repr

/-- One row of the `sensor_data` table of the cellular client. -/
structure CEntry where
  id : Nat
  row : CRow
  sent : Bool
  created_at : Nat
  deriving DecidableEq, Repr

abbrev CQueue := List CEntry

/-- `ORDER BY created_at` comparison for the cellular table. -/
def cLE (a b : CEntry) : Prop :=
  a.created_at ≤ b.created_at

instance : DecidableRel cLE := fun a b => Nat.decLe a.created_at b.created_at

instance : IsTotal CEntry cLE :=
  ⟨fun a b => Nat.le_total a.created_at b.created_at⟩

instance : IsTrans CEntry cLE :=
  ⟨fun _ _ _ h h2 => Nat.le_trans h h2⟩

/-- The SELECT of `CellularDataClient.sync_buffered_data`:
`SELECT * FROM sensor_data WHERE sent = FALSE ORDER BY created_at`
(no retry filter, no LIMIT). -/
def cFetch (q : CQueue) : List CEntry :=
  (q.filter (fun e => !e.sent)).insertionSort cLE

/-- `UPDATE sensor_data SET sent = TRUE WHERE id = ?`. -/
def cMarkSent (i : Nat) (q : CQueue) : CQueue :=
  q.map (fun e => if e.id = i then { e with sent := true } else e)

/-- The row loop of `CellularDataClient.sync_buffered_data`: on success
mark sent and continue; on the first failure just `break` — the cellular
schema has no retry counter, so a failure leaves the row untouched. -/
def cProcess (send : CEntry → Bool) : List CEntry → CQueue → CQueue
  | [], q => q
  | e :: rest, q =>
    if send e then cProcess send rest (cMarkSent e.id q)
    else q

/-- One full drain pass of `CellularDataClient.sync_buffered_data`. -/
def cDrain (send : CEntry → Bool) (q : CQueue) : CQueue :=
  cProcess send (cFetch q) q

/-- Repeated cellular drain passes. -/
def cIter (sends : Nat → CEntry → Bool) : Nat → CQueue → CQueue
  | 0, q => q
  | n + 1, q => cIter (fun i => sends (i + 1)) n (cDrain (sends 0) q)

/-! ## Local storage (`store_data_locally`)

Both clients wrap the `INSERT INTO sensor_data ...; commit` in
`try: ... except Exception as e: print(...)` and fall through to a normal
return.  The outcome of the underlying SQLite insert is an oracle
argument: `storageFails = true` models the insert raising.  The Python
function returns `None` on every path; we expose the (absent) error
channel as `Except String` so that "fails loudly" is statable: the model
shows the result is always `Except.ok`. -/

/-- `FirebaseClient.store_data_locally`: the caught-exception path prints
and returns normally, leaving the queue unchanged. -/
def fb_store_data_locally (q : FBQueue) (e : FBEntry) (storageFails : Bool) :
    Except String FBQueue :=
  if storageFails then Except.ok q
  else Except.ok (q ++ [e])

/-- `CellularDataClient.store_data_locally`: identical structure. -/
def c_store_data_locally (q : CQueue) (e : CEntry) (storageFails : Bool) :
    Except String CQueue :=
  if storageFails then Except.ok q
  else Except.ok (q ++ [e])

/-! ## Speed computation (`monitor_speed`)

`cellular_data_client.py` lines 369–377, `firebase_client.py` lines
498–506, `production/speedometer.py` lines 218–226: identical arithmetic.
Python float arithmetic is modelled over the rationals. -/

/-- The average-speed computation at the end of a sampling window:
`pulses` falling edges counted, wheel circumference `wheel` metres,
window length `elapsed` seconds.
Source: `if pulses > 0: distance = pulses * self.wheel_circumference;
avg_speed = (distance / time_elapsed) * 3.6 else: avg_speed = 0.0`. -/
def monitor_speed_calc (pulses : Nat) (wheel elapsed : ℚ) : ℚ :=
  if 0 < pulses then ((pulses * wheel) / elapsed) * 3.6 else 0.0

/-! ## Wire payloads

A minimal JSON value type; objects keep their key order (Python dicts
preserve insertion order and `json.dumps` serialises in that order). -/

inductive Json where
  | null
  | str (s : String)
  | num (q : ℚ)
  | int (n : Int)
  | obj (fields : List (String × Json))
  deriving Repr

/-- Top-level keys of a JSON object. -/
def Json.topKeys : Json → List String
  | .obj fs => fs.map Prod.fst
  | _ => []

/-- The keys inside the `fields` envelope of a Firestore document. -/
def firestoreFieldKeys : Json → List String
  | .obj (("fields", inner) :: _) => inner.topKeys
  | _ => []

/-- A `datetime.isoformat()` result, kept before rendering: the naive
date-time text plus the UTC-offset suffix, when the datetime carries a
timezone.  `datetime.now(timezone.utc).isoformat()` yields an offset of
`"+00:00"`; `datetime.now().isoformat()` yields none. -/
structure IsoTimestamp where
  body : String
  offset : Option String
  deriving DecidableEq, Repr

/-- `datetime.now(timezone.utc).isoformat()` (firebase client). -/
def nowUtcIso (body : String) : IsoTimestamp :=
  ⟨body, some "+00:00"⟩

/-- `datetime.now().isoformat()` (cellular client): naive local time,
no offset. -/
def nowNaiveIso (body : String) : IsoTimestamp :=
  ⟨body, none⟩

/-- Final string form of the timestamp, as placed in the payload. -/
def IsoTimestamp.render (t : IsoTimestamp) : String :=
  t.body ++ t.offset.getD ""

/-- Helper for Python `Option`-valued dict entries: `None` becomes
JSON `null`. -/
def optNum : Option ℚ → Json
  | some v => .num v
  | none => .null

/-- The dict built by `CellularDataClient.monitor_speed` and serialised
by `json.dumps` in `send_http_request`: keys in insertion order
`timestamp, device_id, speed, pulse_count, latitude, longitude`; the
timestamp is `datetime.now().isoformat()` (naive local time). -/
def cellularPayload (now : String) (devId : String) (speed : ℚ)
    (pulses : Int) (lat lon : Option ℚ) : Json :=
  .obj [("timestamp", .str (nowNaiveIso now).render),
        ("device_id", .str devId),
        ("speed", .num speed),
        ("pulse_count", .int pulses),
        ("latitude", optNum lat),
        ("longitude", optNum lon)]

/-- Python truthiness of `data.get(k)` for an optional numeric field:
`None` and `0` are falsy, so `if data.get("latitude"):` skips the field
both when it is absent and when it is zero. -/
def truthy : Option ℚ → Bool
  | some v => v ≠ 0
  | none => false

def truthyInt : Option Int → Bool
  | some v => v ≠ 0
  | none => false

/-- The Firestore document built by `FirebaseClient.send_to_firebase`
(lines 316–334): the actual HTTP body is an envelope with the single
top-level key `fields`, whose value wraps every datum in a Firestore
typed-value object; `pulse_count` is sent as `integerValue` holding a
string, and a `created_at` stamp is added.  Optional fields are included
only when truthy. -/
def firestoreDoc (devId : String) (ts : IsoTimestamp) (speed : ℚ)
    (pulses : Int) (createdAt : IsoTimestamp)
    (lat lon batt : Option ℚ) (sig : Option Int) : Json :=
  .obj [("fields", .obj (
    [("device_id", .obj [("stringValue", .str devId)]),
     ("timestamp", .obj [("timestampValue", .str ts.render)]),
     ("speed", .obj [("doubleValue", .num speed)]),
     ("pulse_count", .obj [("integerValue", .str (toString pulses))]),
     ("created_at", .obj [("timestampValue", .str createdAt.render)])]
    ++ (if truthy lat then
          [("latitude", Json.obj [("doubleValue", optNum lat)])] else [])
    ++ (if truthy lon then
          [("longitude", Json.obj [("doubleValue", optNum lon)])] else [])
    ++ (if truthy batt then
          [("battery_level", Json.obj [("doubleValue", optNum batt)])] else [])
    ++ (if truthyInt sig then
          [("signal_strength",
            Json.obj [("integerValue",
              Json.str (toString (sig.getD 0)))])] else [])))]

/-- The key set the specification prescribes for the wire payload. -/
def specPayloadKeys : List String :=
  ["device_id", "timestamp", "speed", "pulse_count",
   "latitude", "longitude", "battery_level", "signal_strength"]

/-! ## The serial channel as a scripted transcript

`self.ser` is modelled as the remaining script of read results plus the
log of commands written so far.  `ser.read(n)` with a timeout never
raises; it returns the next scripted chunk (empty once the script is
exhausted). -/

structure Modem where
  script : List String
  log : List String
  deriving DecidableEq, Repr

/-- `self.ser.write(cmd)`. -/
def Modem.wr (m : Modem) (cmd : String) : Modem :=
  { m with log := m.log ++ [cmd] }

/-- `self.ser.read(n)`: consume and return the next scripted chunk. -/
def Modem.rd (m : Modem) : String × Modem :=
  match m.script with
  | [] => ("", m)
  | r :: rest => (r, { m with script := rest })

/-- Write then discard the read, the `write; sleep; read` idiom. -/
def Modem.wrRd (m : Modem) (cmd : String) : Modem :=
  ((m.wr cmd).rd).2

/-! AT command lines issued by the HTTP attempt functions. -/

def httpInitCmd : String := "AT+HTTPINIT\r\n"

def httpSslCmd : String := "AT+HTTPSSL=1\r\n"

def httpCidCmd : String := "AT+HTTPPARA=\"CID\",1\r\n"

def httpUrlCmd (url : String) : String :=
  "AT+HTTPPARA=\"URL\",\"" ++ url ++ "\"\r\n"

def httpUserdataCmd (name value : String) : String :=
  "AT+HTTPPARA=\"USERDATA\",\"" ++ name ++ ": " ++ value ++ "\"\r\n"

def httpDataCmd (len : Nat) : String :=
  "AT+HTTPDATA=" ++ toString len ++ ",10000\r\n"

def httpActionCmd : String := "AT+HTTPACTION=1\r\n"

def httpTermCmd : String := "AT+HTTPTERM\r\n"

/-- The `AT+HTTPPARA="USERDATA",...` loop over the header dict of
`FirebaseClient.send_http_via_sim`. -/
def writeHeaders : List (String × String) → Modem → Modem
  | [], m => m
  | h :: rest, m => writeHeaders rest (m.wrRd (httpUserdataCmd h.1 h.2))

/-- `FirebaseClient.send_http_via_sim` (lines 357–436): one HTTP delivery
attempt.  SSL is enabled when the URL starts with `https://`; the
announced content length is `len(data.encode("utf-8"))`.  On the
data-ready (`DOWNLOAD`) path the payload is streamed, the action issued,
the status read, and `AT+HTTPTERM` written; when the prompt never
arrives, `AT+HTTPTERM` is still written before returning `False`. -/
def send_http_via_sim (url data : String) (headers : List (String × String))
    (m : Modem) : Bool × Modem :=
  let m := m.wrRd httpInitCmd
  let m := if startsTok url "https://" then m.wrRd httpSslCmd else m
  let m := m.wrRd httpCidCmd
  let m := m.wrRd (httpUrlCmd url)
  let m := writeHeaders headers m
  let r := ((m.wr (httpDataCmd data.utf8ByteSize)).rd)
  if hasToken r.1 "DOWNLOAD" then
    let m := (r.2.wr data).wr httpActionCmd
    let r2 := m.rd
    let m := r2.2.wrRd httpTermCmd
    (hasToken r2.1 "+HTTPACTION: 1,200" || hasToken r2.1 "+HTTPACTION: 1,201", m)
  else
    (false, r.2.wr httpTermCmd)

/-- `CellularDataClient.send_http_request` (lines 247–320): as above but
without SSL or header commands, announcing `len(json_data)` (character
count), accepting only status `200` — and, when the `DOWNLOAD` prompt
does not arrive, returning `False` with no `AT+HTTPTERM`. -/
def send_http_request (url jsonData : String) (m : Modem) : Bool × Modem :=
  let m := m.wrRd httpInitCmd
  let m := m.wrRd httpCidCmd
  let m := m.wrRd (httpUrlCmd url)
  let r := ((m.wr (httpDataCmd jsonData.length)).rd)
  if hasToken r.1 "DOWNLOAD" then
    let m := (r.2.wr jsonData).wr httpActionCmd
    let r2 := m.rd
    let m := r2.2.wrRd httpTermCmd
    (hasToken r2.1 "+HTTPACTION: 1,200", m)
  else
    (false, r.2)

/-! ## Command/response polling loops

`waveshare_sms.py`, `WaveshareSIM7070G.send_at_command` (lines 38–60):
after writing the command the loop runs in 0.1 s slices — append whatever
arrived, sleep one slice, then stop as soon as the accumulated response
contains the expected token **or** `ERROR`, or once the deadline passes.
One fuel unit is one polling slice; the second component counts the
slices consumed.  The scripted channel delivers `script[i]` during
slice `i`. -/

def ws_at_loop (expected : String) :
    Nat → List String → String → Nat → String × Nat
  | 0, _, acc, used => (acc, used)
  | n + 1, script, acc, used =>
    let acc2 := acc ++ script.headD ""
    if hasToken acc2 expected || hasToken acc2 "ERROR" then (acc2, used + 1)
    else ws_at_loop expected n script.tail acc2 (used + 1)

/-- `WaveshareSIM7070G.send_at_command`, reduced to its polling loop:
returns the stripped response text and the number of slices used
(`timeoutSlices` is `self.timeout / 0.1`). -/
def ws_send_at_command (timeoutSlices : Nat) (expected : String)
    (script : List String) : String × Nat :=
  let r := ws_at_loop expected timeoutSlices script "" 0
  (trimS r.1, r.2)

/-- `test_sim7070g_internet.py`, `send_at_command` (lines 60–90): the
loop stops **only** when the expected token appears — there is no
`ERROR` check — and on the deadline returns `(False, response)`. -/
def it_at_loop (expected : String) :
    Nat → List String → String → Nat → (Bool × String) × Nat
  | 0, _, acc, used => ((false, acc), used)
  | n + 1, script, acc, used =>
    let acc2 := acc ++ script.headD ""
    if hasToken acc2 expected then ((true, acc2), used)
    else it_at_loop expected n script.tail acc2 (used + 1)

/-- `send_at_command` of `test_sim7070g_internet.py`: success flag,
response text, and slices slept. -/
def it_send_at_command (timeoutSlices : Nat) (expected : String)
    (script : List String) : (Bool × String) × Nat :=
  it_at_loop expected timeoutSlices script "" 0

/-! ## Signal-quality parsing (`FirebaseClient.get_signal_strength`) -/

/-- Python `int(s)` on the strings that can appear here: surrounding
whitespace stripped, an optional single sign, then decimal digits;
anything else raises (modelled as `none`). -/
def pyIntL (l : List Char) : Option Int :=
  match trimL l with
  | '+' :: rest => (digitsVal rest).map Int.ofNat
  | '-' :: rest => (digitsVal rest).map (fun n => -(n : Int))
  | t => (digitsVal t).map Int.ofNat

/-- `FirebaseClient.get_signal_strength` (lines 255–276).  The serial
port state and the response text of the modem are the inputs.
`response.split("+CSQ:")[1]` is the text after the first `+CSQ:` (the
subscript raises, caught by the broad `except`, when the token is
absent); `.strip().split(",")[0]` is the text before the first comma of
the stripped remainder; `int()` raising is likewise caught.  Every
failure path (closed port, no `+CSQ:` token, unparsable rssi,
`rssi == 99`) falls through to `None`. -/
def get_signal_strength (portOpen : Bool) (response : String) : Option Int :=
  if !portOpen then none
  else
    match afterTok "+CSQ:".data response.data with
    | some seg =>
      match pyIntL (beforeTok ",".data (trimL seg)) with
      | some rssi => if rssi ≠ 99 then some (-113 + 2 * rssi) else none
      | none => none
    | none => none

/-- The rssi value of the first `+CSQ:` field of a response, when one is
parsable — the description given in the claim of the parse. -/
def csqRssi (response : String) : Option Int :=
  match afterTok "+CSQ:".data response.data with
  | some seg => pyIntL (beforeTok ",".data (trimL seg))
  | none => none

/-- The description of `get_signal_strength` given in the claim: `-113 + 2·rssi`
when the parsed rssi is not 99; `None` when the rssi is 99, when no
`+CSQ` field parses, or when the port is not open. -/
def gssClaim (portOpen : Bool) (response : String) : Option Int :=
  if portOpen then
    match csqRssi response with
    | some r => if r = 99 then none else some (-113 + 2 * r)
    | none => none
  else none

/-! ## Concrete sample data for witnesses and counterexamples -/

/-- A typical Firebase payload row. -/
def sampleFBRow : FBRow :=
  ⟨"2025-01-01T00:00:30+00:00", "speedometer_001", 4, 15,
    none, none, none, none⟩

/-- A freshly enqueued, pending Firebase entry. -/
def sampleFB : FBEntry := ⟨1, none, sampleFBRow, false, 0, 1⟩

/-- An already-delivered Firebase entry. -/
def sentFB : FBEntry := ⟨1, none, sampleFBRow, true, 0, 1⟩

/-- An abandoned Firebase entry: unsent with `retry_count = 5`. -/
def abandonedFB : FBEntry := ⟨1, none, sampleFBRow, false, 5, 1⟩

/-- A typical cellular payload row. -/
def sampleCRow : CRow :=
  ⟨"2025-01-01T00:00:30", "speedometer_001", 4, 15, none, none⟩

/-- A freshly enqueued, pending cellular entry. -/
def sampleC : CEntry := ⟨1, sampleCRow, false, 1⟩

/-! ## Helper lemmas about the Firebase queue -/

theorem fbMarkRow_id (i : Nat) (e : FBEntry) : (fbMarkRow i e).id = e.id := by
  unfold fbMarkRow; split <;> rfl

theorem fbRetryRow_id (i : Nat) (e : FBEntry) : (fbRetryRow i e).id = e.id := by
  unfold fbRetryRow; split <;> rfl

theorem fbPending_iff (e : FBEntry) :
    fbPending e = true ↔ e.sent = false ∧ e.retry_count < 5 := by
  unfold fbPending
  simp [Bool.and_eq_true]

theorem fbWt_eq (e : FBEntry) :
    fbWt e = if e.sent then 0 else 5 - e.retry_count := by
  unfold fbWt fbPending
  cases hs : e.sent <;> simp [hs] <;> omega

theorem fbWt_pos (e : FBEntry) (h : fbPending e = true) : 0 < fbWt e := by
  obtain ⟨hs, hr⟩ := (fbPending_iff e).mp h
  rw [fbWt_eq, hs]
  simp
  omega

theorem fbWt_markRow_le (i : Nat) (e : FBEntry) :
    fbWt (fbMarkRow i e) ≤ fbWt e := by
  unfold fbMarkRow
  split
  · rw [fbWt_eq]
    simp
  · exact Nat.le_refl _

theorem fbWt_markRow_self (e : FBEntry) (h : fbPending e = true) :
    fbWt (fbMarkRow e.id e) < fbWt e := by
  unfold fbMarkRow
  rw [if_pos rfl]
  have h0 : fbWt { e with sent := true } = 0 := by rw [fbWt_eq]; simp
  rw [h0]
  exact fbWt_pos e h

theorem fbWt_retryRow_le (i : Nat) (e : FBEntry) :
    fbWt (fbRetryRow i e) ≤ fbWt e := by
  unfold fbRetryRow
  split
  · rw [fbWt_eq, fbWt_eq]
    cases e.sent <;> simp <;> omega
  · exact Nat.le_refl _

theorem fbWt_retryRow_self (e : FBEntry) (h : fbPending e = true) :
    fbWt (fbRetryRow e.id e) < fbWt e := by
  obtain ⟨hs, hr⟩ := (fbPending_iff e).mp h
  unfold fbRetryRow
  rw [if_pos rfl, fbWt_eq, fbWt_eq, hs]
  simp
  omega

theorem fbMeasure_markSent_le (i : Nat) (q : FBQueue) :
    fbMeasure (fbMarkSent i q) ≤ fbMeasure q := by
  unfold fbMeasure fbMarkSent
  rw [List.map_map]
  exact List.sum_le_sum fun e _ => fbWt_markRow_le i e

theorem fbMeasure_incRetry_le (i : Nat) (q : FBQueue) :
    fbMeasure (fbIncRetry i q) ≤ fbMeasure q := by
  unfold fbMeasure fbIncRetry
  rw [List.map_map]
  exact List.sum_le_sum fun e _ => fbWt_retryRow_le i e

theorem fbMeasure_markSent_lt (q : FBQueue) (e : FBEntry)
    (he : e ∈ q) (hp : fbPending e = true) :
    fbMeasure (fbMarkSent e.id q) < fbMeasure q := by
  unfold fbMeasure fbMarkSent
  rw [List.map_map]
  exact List.sum_lt_sum _ _ (fun x _ => fbWt_markRow_le e.id x)
    ⟨e, he, fbWt_markRow_self e hp⟩

theorem fbMeasure_incRetry_lt (q : FBQueue) (e : FBEntry)
    (he : e ∈ q) (hp : fbPending e = true) :
    fbMeasure (fbIncRetry e.id q) < fbMeasure q := by
  unfold fbMeasure fbIncRetry
  rw [List.map_map]
  exact List.sum_lt_sum _ _ (fun x _ => fbWt_retryRow_le e.id x)
    ⟨e, he, fbWt_retryRow_self e hp⟩

theorem fbMeasure_process_le (send : FBEntry → Bool) :
    ∀ (batch : List FBEntry) (q : FBQueue),
      fbMeasure (fbProcess send batch q) ≤ fbMeasure q
  | [], _ => Nat.le_refl _
  | e :: rest, q => by
    unfold fbProcess
    split
    · exact Nat.le_trans (fbMeasure_process_le send rest (fbMarkSent e.id q))
        (fbMeasure_markSent_le e.id q)
    · exact fbMeasure_incRetry_le e.id q

theorem fbFetch_mem (q : FBQueue) (e : FBEntry) (h : e ∈ fbFetch q) :
    e ∈ q ∧ fbPending e = true := by
  unfold fbFetch at h
  have h1 : e ∈ (q.filter fbPending).insertionSort fbLE :=
    List.take_subset 10 _ h
  have h2 : e ∈ q.filter fbPending := (List.mem_insertionSort fbLE).mp h1
  exact List.mem_filter.mp h2

theorem fbMeasure_drain_lt (send : FBEntry → Bool) (q : FBQueue)
    (h : fbFetch q ≠ []) : fbMeasure (fbDrain send q) < fbMeasure q := by
  unfold fbDrain
  rcases hb : fbFetch q with _ | ⟨e, rest⟩
  · exact absurd hb h
  have hmem : e ∈ fbFetch q := by rw [hb]; exact List.mem_cons_self e rest
  obtain ⟨heq, hp⟩ := fbFetch_mem q e hmem
  unfold fbProcess
  split
  · exact Nat.lt_of_le_of_lt
      (fbMeasure_process_le send rest (fbMarkSent e.id q))
      (fbMeasure_markSent_lt q e heq hp)
  · exact fbMeasure_incRetry_lt q e heq hp

theorem fbMeasure_zero_not_pending (q : FBQueue) (h : fbMeasure q = 0)
    (e : FBEntry) (he : e ∈ q) : fbPending e = false := by
  by_contra hne
  have hp : fbPending e = true := by
    cases hpe : fbPending e
    · exact absurd hpe hne
    · rfl
  have hwt : fbWt e = 0 :=
    List.sum_eq_zero_iff.mp h (fbWt e) (List.mem_map_of_mem fbWt he)
  exact absurd hwt (Nat.ne_of_gt (fbWt_pos e hp))

theorem fbMeasure_zero_fetch (q : FBQueue) (h : fbMeasure q = 0) :
    fbFetch q = [] := by
  unfold fbFetch
  have hf : q.filter fbPending = [] := by
    rw [List.filter_eq_nil_iff]
    intro e he hp
    have := fbMeasure_zero_not_pending q h e he
    rw [this] at hp
    exact Bool.false_ne_true hp
  rw [hf]
  rfl

theorem fbMeasure_zero_drain (send : FBEntry → Bool) (q : FBQueue)
    (h : fbMeasure q = 0) : fbDrain send q = q := by
  unfold fbDrain
  rw [fbMeasure_zero_fetch q h]
  rfl

theorem fbMeasure_pos_fetch (q : FBQueue) (h : fbMeasure q ≠ 0) :
    fbFetch q ≠ [] := by
  have hex : ∃ w ∈ q.map fbWt, w ≠ 0 := by
    by_contra hall
    push_neg at hall
    exact h (List.sum_eq_zero hall)
  obtain ⟨w, hwm, hw⟩ := hex
  obtain ⟨e, he, hwe⟩ := List.mem_map.mp hwm
  have hp : fbPending e = true := by
    by_contra hpn
    have hp0 : fbPending e = false := by
      cases hpe : fbPending e
      · rfl
      · exact absurd hpe hpn
    have h0 : fbWt e = 0 := by unfold fbWt; rw [hp0]; rfl
    rw [hwe] at h0
    exact hw h0
  have hmemf : e ∈ q.filter fbPending := List.mem_filter.mpr ⟨he, hp⟩
  have hlen : 0 < (q.filter fbPending).length := List.length_pos.mpr
    (List.ne_nil_of_mem hmemf)
  unfold fbFetch
  apply List.ne_nil_of_length_pos
  rw [List.length_take, List.length_insertionSort]
  omega

theorem fbMeasure_zero_terminal (q : FBQueue) (h : fbMeasure q = 0) :
    fbAllTerminal q := by
  intro e he
  have hp := fbMeasure_zero_not_pending q h e he
  unfold fbPending at hp
  simp only [Bool.and_eq_false_imp, Bool.not_eq_true', decide_eq_true_eq] at hp
  rcases hs : e.sent with _ | _
  · right
    have := hp hs
    simp only [decide_eq_false_iff_not, Nat.not_lt] at this
    omega
  · left; rfl

theorem fbIter_terminal :
    ∀ (k : Nat) (sends : Nat → FBEntry → Bool) (q : FBQueue),
      fbMeasure q ≤ k → fbAllTerminal (fbIter sends k q)
  | 0, _, q, h => by
    unfold fbIter
    exact fbMeasure_zero_terminal q (Nat.le_zero.mp h)
  | k + 1, sends, q, h => by
    unfold fbIter
    by_cases hz : fbMeasure q = 0
    · apply fbIter_terminal k
      rw [fbMeasure_zero_drain (sends 0) q hz, hz]
      exact Nat.zero_le k
    · apply fbIter_terminal k
      have := fbMeasure_drain_lt (sends 0) q (fbMeasure_pos_fetch q hz)
      omega

/-! ## Identity and delivery-status bookkeeping lemmas -/

theorem fbHasId_markSent (j i : Nat) (q : FBQueue) :
    fbHasId (fbMarkSent j q) i = fbHasId q i := by
  unfold fbHasId fbMarkSent
  rw [List.any_map]
  congr 1
  funext e
  simp [Function.comp, fbMarkRow_id]

theorem fbHasId_incRetry (j i : Nat) (q : FBQueue) :
    fbHasId (fbIncRetry j q) i = fbHasId q i := by
  unfold fbHasId fbIncRetry
  rw [List.any_map]
  congr 1
  funext e
  simp [Function.comp, fbRetryRow_id]

theorem fbIdSent_markSent_mono (j i : Nat) (q : FBQueue)
    (h : fbIdSent q i = true) : fbIdSent (fbMarkSent j q) i = true := by
  unfold fbIdSent at *
  obtain ⟨e, he, hpe⟩ := List.any_eq_true.mp h
  simp only [Bool.and_eq_true, beq_iff_eq] at hpe
  apply List.any_eq_true.mpr
  refine ⟨fbMarkRow j e, List.mem_map_of_mem _ he, ?_⟩
  simp only [Bool.and_eq_true, beq_iff_eq, fbMarkRow_id]
  refine ⟨hpe.1, ?_⟩
  unfold fbMarkRow
  split
  · rfl
  · exact hpe.2

theorem fbIdSent_incRetry_mono (j i : Nat) (q : FBQueue)
    (h : fbIdSent q i = true) : fbIdSent (fbIncRetry j q) i = true := by
  unfold fbIdSent at *
  obtain ⟨e, he, hpe⟩ := List.any_eq_true.mp h
  simp only [Bool.and_eq_true, beq_iff_eq] at hpe
  apply List.any_eq_true.mpr
  refine ⟨fbRetryRow j e, List.mem_map_of_mem _ he, ?_⟩
  simp only [Bool.and_eq_true, beq_iff_eq, fbRetryRow_id]
  refine ⟨hpe.1, ?_⟩
  unfold fbRetryRow
  split
  · exact hpe.2
  · exact hpe.2

theorem fbIdSent_markSent_self (i : Nat) (q : FBQueue)
    (h : fbHasId q i = true) : fbIdSent (fbMarkSent i q) i = true := by
  unfold fbHasId at h
  obtain ⟨e, he, hpe⟩ := List.any_eq_true.mp h
  have hid : e.id = i := by simpa using hpe
  unfold fbIdSent
  apply List.any_eq_true.mpr
  refine ⟨fbMarkRow i e, List.mem_map_of_mem _ he, ?_⟩
  unfold fbMarkRow
  rw [if_pos hid]
  simp [hid]

theorem fbIdSent_processTrace_mono (send : FBEntry → Bool) :
    ∀ (batch : List FBEntry) (q : FBQueue) (i : Nat),
      fbIdSent q i = true →
      fbIdSent (fbProcessTrace send batch q).1 i = true
  | [], _, _, h => h
  | e :: rest, q, i, h => by
    unfold fbProcessTrace
    split
    · exact fbIdSent_processTrace_mono send rest (fbMarkSent e.id q) i
        (fbIdSent_markSent_mono e.id i q h)
    · exact fbIdSent_incRetry_mono e.id i q h

theorem fbHasId_processTrace (send : FBEntry → Bool) :
    ∀ (batch : List FBEntry) (q : FBQueue) (i : Nat),
      fbHasId ((fbProcessTrace send batch q).1) i = fbHasId q i
  | [], _, _ => rfl
  | e :: rest, q, i => by
    unfold fbProcessTrace
    split
    · rw [fbHasId_processTrace send rest (fbMarkSent e.id q) i,
        fbHasId_markSent]
    · exact fbHasId_incRetry e.id i q

/-- The instrumented row loop computes the same final queue as the plain
one. -/
theorem fbProcessTrace_fst (send : FBEntry → Bool) :
    ∀ (batch : List FBEntry) (q : FBQueue),
      (fbProcessTrace send batch q).1 = fbProcess send batch q
  | [], _ => rfl
  | e :: rest, q => by
    unfold fbProcessTrace fbProcess
    split
    · exact fbProcessTrace_fst send rest (fbMarkSent e.id q)
    · rfl

/-- Shape of one drain pass over an arbitrary batch: either every row is
attempted and delivered in order, or there is a first failing row; the
rows before it were attempted in order and are recorded as sent, the
failing row is the last one attempted, and nothing afterwards is
attempted. -/
theorem fbProcessTrace_shape (send : FBEntry → Bool) :
    ∀ (batch : List FBEntry) (q : FBQueue),
      (∀ e ∈ batch, fbHasId q e.id = true) →
      ((∀ e ∈ batch, send e = true) ∧
        (fbProcessTrace send batch q).2 = batch ∧
        ∀ e ∈ batch, fbIdSent (fbProcessTrace send batch q).1 e.id = true)
      ∨ (∃ pre f post, batch = pre ++ f :: post ∧
          (∀ x ∈ pre, send x = true) ∧ send f = false ∧
          (fbProcessTrace send batch q).2 = pre ++ [f] ∧
          ∀ x ∈ pre, fbIdSent (fbProcessTrace send batch q).1 x.id = true)
  | [], q, _ => by
    left
    refine ⟨fun e he => absurd he (List.not_mem_nil e), rfl,
      fun e he => absurd he (List.not_mem_nil e)⟩
  | e :: rest, q, hid => by
    by_cases hs : send e = true
    · have hid' : ∀ x ∈ rest, fbHasId (fbMarkSent e.id q) x.id = true := by
        intro x hx
        rw [fbHasId_markSent]
        exact hid x (List.mem_cons_of_mem e hx)
      have hesent :
          fbIdSent (fbProcessTrace send rest (fbMarkSent e.id q)).1 e.id
            = true :=
        fbIdSent_processTrace_mono send rest (fbMarkSent e.id q) e.id
          (fbIdSent_markSent_self e.id q (hid e (List.mem_cons_self e rest)))
      rcases fbProcessTrace_shape send rest (fbMarkSent e.id q) hid' with
        ⟨hall, htr, hsent⟩ | ⟨pre, f, post, hbatch, hpre, hf, htr, hsent⟩
      · left
        refine ⟨?_, ?_, ?_⟩
        · intro x hx
          rcases List.mem_cons.mp hx with hx | hx
          · rw [hx]; exact hs
          · exact hall x hx
        · show (fbProcessTrace send (e :: rest) q).2 = e :: rest
          unfold fbProcessTrace
          rw [if_pos hs]
          simpa using htr
        · intro x hx
          show fbIdSent (fbProcessTrace send (e :: rest) q).1 x.id = true
          unfold fbProcessTrace
          rw [if_pos hs]
          rcases List.mem_cons.mp hx with hx | hx
          · rw [hx]; exact hesent
          · exact hsent x hx
      · right
        refine ⟨e :: pre, f, post, by rw [hbatch, List.cons_append], ?_, hf,
          ?_, ?_⟩
        · intro x hx
          rcases List.mem_cons.mp hx with hx | hx
          · rw [hx]; exact hs
          · exact hpre x hx
        · show (fbProcessTrace send (e :: rest) q).2 = (e :: pre) ++ [f]
          unfold fbProcessTrace
          rw [if_pos hs]
          simpa using htr
        · intro x hx
          show fbIdSent (fbProcessTrace send (e :: rest) q).1 x.id = true
          unfold fbProcessTrace
          rw [if_pos hs]
          rcases List.mem_cons.mp hx with hx | hx
          · rw [hx]; exact hesent
          · exact hsent x hx
    · right
      have hs' : send e = false := by
        cases hse : send e
        · rfl
        · exact absurd hse hs
      refine ⟨[], e, rest, rfl, fun x hx => absurd hx (List.not_mem_nil x),
        hs', ?_, fun x hx => absurd hx (List.not_mem_nil x)⟩
      show (fbProcessTrace send (e :: rest) q).2 = [] ++ [e]
      unfold fbProcessTrace
      rw [if_neg (by rw [hs']; exact Bool.false_ne_true)]
      rfl

theorem fbFetch_hasId (q : FBQueue) (e : FBEntry) (h : e ∈ fbFetch q) :
    fbHasId q e.id = true := by
  obtain ⟨hq, _⟩ := fbFetch_mem q e h
  unfold fbHasId
  exact List.any_eq_true.mpr ⟨e, hq, by simp⟩

/-! ## Command-log lemmas for the scripted modem -/

theorem Modem.rd_log (m : Modem) : m.rd.2.log = m.log := by
  rcases m with ⟨script, log⟩
  cases script <;> rfl

theorem Modem.wrRd_log (m : Modem) (cmd : String) :
    (m.wrRd cmd).log = m.log ++ [cmd] := by
  unfold Modem.wrRd
  rw [Modem.rd_log]
  rfl

theorem mem_log_wr (m : Modem) (cmd c : String) (h : c ∈ m.log) :
    c ∈ (m.wr cmd).log :=
  List.mem_append_left _ h

theorem mem_log_rd (m : Modem) (c : String) (h : c ∈ m.log) :
    c ∈ m.rd.2.log := by
  rw [Modem.rd_log]
  exact h

theorem mem_log_wrRd (m : Modem) (cmd c : String) (h : c ∈ m.log) :
    c ∈ (m.wrRd cmd).log := by
  rw [Modem.wrRd_log]
  exact List.mem_append_left _ h

theorem self_mem_wr (m : Modem) (cmd : String) : cmd ∈ (m.wr cmd).log :=
  List.mem_append_right _ (List.mem_singleton.mpr rfl)

theorem self_mem_wrRd (m : Modem) (cmd : String) : cmd ∈ (m.wrRd cmd).log := by
  rw [Modem.wrRd_log]
  exact List.mem_append_right _ (List.mem_singleton.mpr rfl)

theorem mem_log_writeHeaders :
    ∀ (headers : List (String × String)) (m : Modem) (c : String),
      c ∈ m.log → c ∈ (writeHeaders headers m).log
  | [], _, _, h => h
  | hd :: rest, m, c, h =>
    mem_log_writeHeaders rest _ c (mem_log_wrRd _ _ c h)

theorem fbFindId_incRetry (i : Nat) (q : FBQueue) :
    fbFindId (fbIncRetry i q) i =
      (fbFindId q i).map (fun x => { x with retry_count := x.retry_count + 1 }) := by
  unfold fbFindId fbIncRetry
  induction q with
  | nil => rfl
  | cons e rest ih =>
    by_cases hid : e.id = i
    · rw [List.map_cons, List.find?_cons_of_pos, List.find?_cons_of_pos]
      · unfold fbRetryRow
        rw [if_pos hid]
        rfl
      · simpa using hid
      · simp [fbRetryRow_id, hid]
    · rw [List.map_cons, List.find?_cons_of_neg, List.find?_cons_of_neg]
      · exact ih
      · simpa using hid
      · simp [fbRetryRow_id, hid]

/-- An abandoned row — unsent with `retry_count ≥ 5` — is excluded from
every fetch, hence never attempted again. -/
theorem fbAbandoned_not_fetched (q : FBQueue) (e : FBEntry)
    (hrc : 5 ≤ e.retry_count) : e ∉ fbFetch q := by
  intro hmem
  obtain ⟨_, hp⟩ := fbFetch_mem q e hmem
  obtain ⟨_, hlt⟩ := (fbPending_iff e).mp hp
  omega

/-! ## Claim theorems -/

/-- Claim C4, counterexample.  In `CellularDataClient.send_http_request`,
when the `AT+HTTPDATA` response carries no `DOWNLOAD` prompt, the attempt
returns with `AT+HTTPINIT` issued but no `AT+HTTPTERM`: the claim that
every path issuing the init also issues the termination is false for this
function. -/
theorem c4_cellular_no_term :
    httpInitCmd ∈
      (send_http_request "http://host/api/data" "payload"
        ⟨["OK", "OK", "OK", "ERROR"], []⟩).2.log ∧
    httpTermCmd ∉
      (send_http_request "http://host/api/data" "payload"
        ⟨["OK", "OK", "OK", "ERROR"], []⟩).2.log := by
  constructor
  · decide
  · decide

/-- Claim C4, amended: in `FirebaseClient.send_http_via_sim` every path —
success, non-success status, or missing data-ready prompt — issues
`AT+HTTPTERM` after the unconditional `AT+HTTPINIT`; the cellular
client `send_http_request` omits the termination on the missing-prompt
path (see the counterexample). -/
theorem c4_firebase_always_terminates :
    ∀ (url data : String) (headers : List (String × String)) (m : Modem),
      httpInitCmd ∈ (send_http_via_sim url data headers m).2.log ∧
      httpTermCmd ∈ (send_http_via_sim url data headers m).2.log := by
  intro url data headers m
  simp only [send_http_via_sim]
  constructor
  · split <;> split <;>
      (repeat
        first
        | exact self_mem_wrRd _ httpInitCmd
        | apply mem_log_wrRd
        | apply mem_log_rd
        | apply mem_log_wr
        | apply mem_log_writeHeaders)
  · split <;> split <;>
      first
      | exact self_mem_wrRd _ httpTermCmd
      | exact self_mem_wr _ httpTermCmd

/-- Claim C6, counterexample.  The `send_at_command` of
`test_sim7070g_internet.py` has no `ERROR` check: with the default 5 s
timeout (50 polling slices of 0.1 s) and a scripted channel that
delivers `ERROR` in the first slice, the loop still sleeps through all
50 slices and returns failure only at the deadline — not within one
polling slice, as the claim requires of every command/response engine. -/
theorem c6_internet_loop_ignores_error :
    hasToken "ERROR\r\n" "ERROR" = true ∧
    (it_send_at_command 50 "OK" ["ERROR\r\n"]).2 = 50 ∧
    (it_send_at_command 50 "OK" ["ERROR\r\n"]).1.1 = false := by
  refine ⟨by decide, by decide, by decide⟩

/-- Claim C6, amended: in `WaveshareSIM7070G.send_at_command`
(`waveshare_sms.py`) a response chunk containing `ERROR` delivered in
the first polling slice makes the loop return after exactly one slice;
the `send_at_command` of `test_sim7070g_internet.py` has no such
short-circuit and polls until the full timeout (see the
counterexample). -/
theorem c6_waveshare_error_short_circuit :
    ∀ (expected chunk : String) (rest : List String) (n : Nat),
      1 ≤ n → hasToken chunk "ERROR" = true →
      (ws_send_at_command n expected (chunk :: rest)).2 = 1 := by
  intro expected chunk rest n hn herr
  cases n with
  | zero => omega
  | succ m =>
    show (ws_at_loop expected (m + 1) (chunk :: rest) "" 0).2 = 1
    unfold ws_at_loop
    have hc : ("" : String) ++ chunk = chunk := by
      apply congrArg String.mk
      exact List.nil_append chunk.data
    simp only [List.headD_cons, hc, herr, Bool.or_true, if_true]

/-- Claim C6 witness: the waveshare loop applied to a concrete
`ERROR`-first script returns after one slice. -/
theorem c6_waveshare_witness :
    1 ≤ 100 ∧ hasToken "ERROR\r\n" "ERROR" = true ∧
    (ws_send_at_command 100 "OK" ["ERROR\r\n"]).2 = 1 :=
  ⟨by decide, by decide,
    c6_waveshare_error_short_circuit "OK" "ERROR\r\n" [] 100 (by decide)
      (by decide)⟩

/-- Claim C7: the computed average speed over a sampling window is
`(count · wheel_circumference / elapsed) · 3.6` km/h; zero pulses give
speed `0.0`; the happy-path scenario `count = 15`, wheel `2.1` m,
window `30` s gives `3.78` km/h. -/
theorem c7_speed_formula :
    ∀ (c : Nat) (w t : ℚ),
      monitor_speed_calc c w t = ((c * w) / t) * 3.6 ∧
      monitor_speed_calc 0 w t = 0 ∧
      monitor_speed_calc 15 2.1 30 = 3.78 := by
  intro c w t
  refine ⟨?_, ?_, ?_⟩
  · cases c with
    | zero =>
      unfold monitor_speed_calc
      norm_num
    | succ k =>
      unfold monitor_speed_calc
      rw [if_pos (Nat.succ_pos k)]
  · unfold monitor_speed_calc
    norm_num
  · unfold monitor_speed_calc
    norm_num

/-- Claim C10: `get_signal_strength` returns `-113 + 2·rssi` exactly
when the port is open and the parsed rssi differs from 99, and `None`
when the rssi is 99, when no `+CSQ` field parses, or when the port is
closed; the `Option` return type reflects that no path raises to the
caller. -/
theorem c10_signal_strength :
    ∀ (portOpen : Bool) (response : String),
      get_signal_strength portOpen response = gssClaim portOpen response := by
  intro portOpen response
  cases portOpen with
  | false => rfl
  | true =>
    unfold get_signal_strength gssClaim csqRssi
    simp only [Bool.not_true, Bool.false_eq_true, if_false, if_true]
    cases afterTok "+CSQ:".data response.data with
    | none => rfl
    | some seg =>
      rcases hP : pyIntL (beforeTok ",".data (trimL seg)) with _ | r
      · simp [hP]
      · by_cases h : r = 99 <;> simp [hP, h]

/-- Claim C3, counterexample.  When the underlying SQLite insert raises,
`store_data_locally` (Firebase client) catches the exception, prints,
and returns normally with nothing stored: the result is `Except.ok`
with the queue unchanged, not an error propagated to the sampler. -/
theorem c3_store_error_swallowed :
    fb_store_data_locally [] sampleFB true = Except.ok [] ∧
    (fb_store_data_locally [] sampleFB true).isOk = true :=
  ⟨rfl, rfl⟩

/-- Claim C3, amended: both `store_data_locally` implementations trap
every storage error and return normally — `Except.ok` on all inputs —
appending the reading on success and silently dropping it when the
insert fails. -/
theorem c3_store_never_raises :
    ∀ (q : FBQueue) (e : FBEntry) (b : Bool) (qc : CQueue) (ec : CEntry),
      fb_store_data_locally q e b = Except.ok (if b then q else q ++ [e]) ∧
      c_store_data_locally qc ec b = Except.ok (if b then qc else qc ++ [ec]) := by
  intro q e b qc ec
  cases b <;> exact ⟨rfl, rfl⟩

/-- Claim C1, counterexample.  The queue of the cellular client has no retry
counter: a failed drain pass leaves the queue completely unchanged, so a
pending entry facing a permanently failing link is re-fetched by every
subsequent pass and never reaches a terminal Delivered or Abandoned
state — the drain is a fixed point, refuting termination after the
configured `max_delivery_attempts` (`retry_attempts = 3` in the default
configuration). -/
theorem c1_cellular_retries_forever :
    cDrain (fun _ => false) [sampleC] = [sampleC] ∧
    cIter (fun _ _ => false) 7 [sampleC] = [sampleC] ∧
    sampleC.sent = false ∧
    cFetch [sampleC] = [sampleC] := by
  refine ⟨by decide, by decide, rfl, by decide⟩

/-- Claim C1, amended: in the Firebase client every failed attempt
increments the `retry_count` of the attempted row by exactly one, a row with
`retry_count ≥ 5` (a ceiling hardcoded in the SQL, not the configured
`retry_attempts`) is never fetched again, and repeated drain passes —
under arbitrary per-pass delivery outcomes — leave every row terminal
(sent, or abandoned at `retry_count ≥ 5`) within `fbMeasure q` passes.
The cellular client has no retry counter and retries a failing entry
forever (see the counterexample). -/
theorem c1_firebase_eventually_terminal :
    (∀ (k : Nat) (sends : Nat → FBEntry → Bool) (q : FBQueue),
        fbMeasure q ≤ k → fbAllTerminal (fbIter sends k q)) ∧
    (∀ (send : FBEntry → Bool) (q : FBQueue) (f : FBEntry)
        (rest : List FBEntry),
        fbFetch q = f :: rest → send f = false →
        fbFindId (fbDrain send q) f.id =
          (fbFindId q f.id).map
            (fun x => { x with retry_count := x.retry_count + 1 })) ∧
    (∀ (q : FBQueue) (e : FBEntry), 5 ≤ e.retry_count → e ∉ fbFetch q) := by
  refine ⟨fbIter_terminal, ?_, ?_⟩
  · intro send q f rest hfetch hsend
    unfold fbDrain
    rw [hfetch]
    unfold fbProcess
    rw [if_neg (by rw [hsend]; exact Bool.false_ne_true)]
    exact fbFindId_incRetry f.id q
  · intro q e hrc
    exact fbAbandoned_not_fetched q e hrc

/-- Claim C1 witness: a concrete pending entry, with every delivery
failing, is abandoned (terminal) after the drain passes bound; a failed
first attempt increments its retry count from 0 to 1; the abandoned
sample entry is not fetched. -/
theorem c1_firebase_witness :
    (fbMeasure [sampleFB] ≤ 10 ∧
      fbAllTerminal (fbIter (fun _ _ => false) 10 [sampleFB])) ∧
    fbFindId (fbDrain (fun _ => false) [sampleFB]) 1 =
      (fbFindId [sampleFB] 1).map
        (fun x => { x with retry_count := x.retry_count + 1 }) ∧
    abandonedFB ∉ fbFetch [abandonedFB] :=
  ⟨⟨by decide,
      c1_firebase_eventually_terminal.1 10 (fun _ _ => false) [sampleFB]
        (by decide)⟩,
    c1_firebase_eventually_terminal.2.1 (fun _ => false) [sampleFB] sampleFB
      [] (by decide) rfl,
    c1_firebase_eventually_terminal.2.2 [abandonedFB] abandonedFB (by decide)⟩

/-- Claim C2: one drain pass of `FirebaseClient.sync_buffered_data`
processes the fetched batch strictly in order — either every fetched
entry is attempted and marked sent, or there is a first failing entry:
the entries before it were attempted, are recorded sent in the final
queue, the failing entry is the last one attempted, and no entry after
it is attempted in that pass.  The instrumented loop used to state this
computes exactly the final queue of the drain.  The cellular drain loop
likewise stops at the first failing row, leaving the queue unchanged
from that point. -/
theorem c2_drain_stops_at_first_failure :
    ∀ (q : FBQueue) (send : FBEntry → Bool),
      (fbProcessTrace send (fbFetch q) q).1 = fbDrain send q ∧
      (((∀ e ∈ fbFetch q, send e = true) ∧
          (fbProcessTrace send (fbFetch q) q).2 = fbFetch q ∧
          ∀ e ∈ fbFetch q,
            fbIdSent (fbProcessTrace send (fbFetch q) q).1 e.id = true) ∨
        (∃ pre f post, fbFetch q = pre ++ f :: post ∧
          (∀ x ∈ pre, send x = true) ∧ send f = false ∧
          (fbProcessTrace send (fbFetch q) q).2 = pre ++ [f] ∧
          ∀ x ∈ pre,
            fbIdSent (fbProcessTrace send (fbFetch q) q).1 x.id = true)) ∧
      (∀ (sendc : CEntry → Bool) (qc : CQueue) (f : CEntry)
          (restc : List CEntry),
          sendc f = false → cProcess sendc (f :: restc) qc = qc) :=
  fun q send =>
    ⟨fbProcessTrace_fst send (fbFetch q) q,
      fbProcessTrace_shape send (fbFetch q) q
        (fun e he => fbFetch_hasId q e he),
      fun sendc qc f restc hf => by
        unfold cProcess
        rw [if_neg (by rw [hf]; exact Bool.false_ne_true)]⟩

/-- Claim C5: the fetched batch is sorted by creation time (oldest
first), bounded by the LIMIT of 10, consists of pending rows of the
queue, and contains every pending row whenever at most 10 are pending;
the attempted entries of a pass are processed in that creation order,
and the fetch of the cellular client is likewise creation-ordered
(its SELECT has no LIMIT clause: it returns every pending row). -/
theorem c5_fetch_fifo :
    ∀ (q : FBQueue),
      List.Sorted fbLE (fbFetch q) ∧
      (fbFetch q).length ≤ 10 ∧
      (∀ e ∈ fbFetch q, e ∈ q ∧ e.sent = false ∧ e.retry_count < 5) ∧
      ((q.filter fbPending).length ≤ 10 →
        ∀ e ∈ q, fbPending e = true → e ∈ fbFetch q) ∧
      (∀ send : FBEntry → Bool,
        List.Sorted fbLE (fbProcessTrace send (fbFetch q) q).2) ∧
      (∀ qc : CQueue, List.Sorted cLE (cFetch qc) ∧
        (cFetch qc).length = (qc.filter (fun e => !e.sent)).length) := by
  intro q
  have hsorted : List.Sorted fbLE (fbFetch q) :=
    List.Pairwise.sublist (List.take_sublist 10 _)
      (List.sorted_insertionSort fbLE (q.filter fbPending))
  refine ⟨hsorted, ?_, ?_, ?_, ?_, ?_⟩
  · unfold fbFetch
    rw [List.length_take]
    exact Nat.min_le_left 10 _
  · intro e he
    obtain ⟨hq, hp⟩ := fbFetch_mem q e he
    obtain ⟨hs, hr⟩ := (fbPending_iff e).mp hp
    exact ⟨hq, hs, hr⟩
  · intro hlen e he hp
    unfold fbFetch
    rw [List.take_of_length_le
      (by rw [List.length_insertionSort]; exact hlen)]
    exact (List.mem_insertionSort fbLE).mpr (List.mem_filter.mpr ⟨he, hp⟩)
  · intro send
    rcases fbProcessTrace_shape send (fbFetch q) q
        (fun e he => fbFetch_hasId q e he) with
      ⟨_, htr, _⟩ | ⟨pre, f, post, hbatch, _, _, htr, _⟩
    · rw [htr]; exact hsorted
    · rw [htr]
      have hsub : List.Sublist (pre ++ [f]) (fbFetch q) := by
        rw [hbatch]
        exact List.Sublist.append_left ((List.nil_sublist post).cons₂ f) pre
      exact List.Pairwise.sublist hsub hsorted
  · intro qc
    exact ⟨List.sorted_insertionSort cLE (qc.filter (fun e => !e.sent)),
      List.length_insertionSort cLE (qc.filter (fun e => !e.sent))⟩

/-- Claim C9, counterexample.  The retry-increment update applied to an
already abandoned row (`retry_count = 5`) is not a no-op: it raises
`retry_count` to 6, while the claim requires `attempt_count` to stay
unchanged once the entry is Abandoned. -/
theorem c9_retry_increment_not_noop :
    fbIncRetry 1 [abandonedFB] ≠ [abandonedFB] ∧
    (fbFindId (fbIncRetry 1 [abandonedFB]) 1).map
        (fun e => e.retry_count) = some 6 ∧
    abandonedFB.retry_count = 5 := by
  refine ⟨by decide, by decide, rfl⟩

/-- Claim C9, amended: marking delivered is idempotent — the `sent`
update applied to a queue whose matching rows are already sent leaves
the queue unchanged, and applying it twice equals applying it once; an
abandoned row stays abandoned under the retry increment and is never
fetched (so the drain never applies the increment to it) — but the raw
retry-increment update applied to an abandoned row does raise its
`retry_count` (see the counterexample). -/
theorem c9_mark_delivered_idempotent :
    (∀ (q : FBQueue) (i : Nat),
        (∀ e ∈ q, e.id = i → e.sent = true) → fbMarkSent i q = q) ∧
    (∀ (q : FBQueue) (i : Nat),
        fbMarkSent i (fbMarkSent i q) = fbMarkSent i q) ∧
    (∀ (i : Nat) (e : FBEntry),
        5 ≤ e.retry_count → 5 ≤ (fbRetryRow i e).retry_count) ∧
    (∀ (q : FBQueue) (e : FBEntry),
        5 ≤ e.retry_count → e ∉ fbFetch q) := by
  refine ⟨?_, ?_, ?_, ?_⟩
  · intro q i h
    unfold fbMarkSent
    conv_rhs => rw [← List.map_id q]
    apply List.map_congr_left
    intro e he
    unfold fbMarkRow
    split
    case isTrue hid =>
      have hs := h e he hid
      cases e
      simp_all
    case isFalse => rfl
  · intro q i
    unfold fbMarkSent
    rw [List.map_map]
    apply List.map_congr_left
    intro e _
    show fbMarkRow i (fbMarkRow i e) = fbMarkRow i e
    by_cases hid : e.id = i <;> simp [fbMarkRow, hid]
  · intro i e h
    unfold fbRetryRow
    split
    · show 5 ≤ e.retry_count + 1
      omega
    · exact h
  · intro q e h
    exact fbAbandoned_not_fetched q e h

/-- Claim C9 witness: the no-op facts at concrete rows — re-marking a
sent row changes nothing, and an abandoned row stays ≥ 5 and is not
fetched. -/
theorem c9_witness :
    fbMarkSent 1 [sentFB] = [sentFB] ∧
    5 ≤ (fbRetryRow 1 abandonedFB).retry_count ∧
    abandonedFB ∉ fbFetch [abandonedFB] :=
  ⟨c9_mark_delivered_idempotent.1 [sentFB] 1 (by decide),
    c9_mark_delivered_idempotent.2.2.1 1 abandonedFB (by decide),
    c9_mark_delivered_idempotent.2.2.2 [abandonedFB] abandonedFB (by decide)⟩

/-- Claim C8, counterexample.  The actual HTTP body of the Firebase client is
a Firestore envelope: its only top-level key is `fields`, which is not
among the keys the claim prescribes for the wire payload. -/
theorem c8_firestore_envelope :
    (firestoreDoc "speedometer_001" (nowUtcIso "2025-01-01T00:00:30")
        3.78 15 (nowUtcIso "2025-01-01T00:00:31")
        none none none none).topKeys = ["fields"] ∧
    "fields" ∉ specPayloadKeys :=
  ⟨rfl, by decide⟩

/-- Claim C8, amended: the flat payload of the cellular client carries
exactly the keys `timestamp, device_id, speed, pulse_count, latitude,
longitude` — but its timestamp is naive local time (no UTC offset);
the payload of the Firebase client is a Firestore envelope whose single
top-level key is `fields`, with the claimed field names (plus
`created_at`) nested inside typed-value wrappers, optional fields
included only when truthy, and UTC timestamps. -/
theorem c8_payload_shape :
    ∀ (now devId : String) (speed : ℚ) (pulses : Int)
      (lat lon batt : Option ℚ) (sig : Option Int)
      (ts createdAt : IsoTimestamp),
      (cellularPayload now devId speed pulses lat lon).topKeys =
        ["timestamp", "device_id", "speed", "pulse_count",
         "latitude", "longitude"] ∧
      (nowNaiveIso now).offset = none ∧
      (nowUtcIso now).offset = some "+00:00" ∧
      (firestoreDoc devId ts speed pulses createdAt lat lon batt
          sig).topKeys = ["fields"] ∧
      firestoreFieldKeys
          (firestoreDoc devId ts speed pulses createdAt lat lon batt sig) =
        ["device_id", "timestamp", "speed", "pulse_count", "created_at"]
          ++ (if truthy lat then ["latitude"] else [])
          ++ (if truthy lon then ["longitude"] else [])
          ++ (if truthy batt then ["battery_level"] else [])
          ++ (if truthyInt sig then ["signal_strength"] else []) := by
  intro now devId speed pulses lat lon batt sig ts createdAt
  refine ⟨rfl, rfl, rfl, rfl, ?_⟩
  cases htl : truthy lat <;> cases htlo : truthy lon <;>
    cases htb : truthy batt <;> cases hts : truthyInt sig <;>
      simp [firestoreDoc, firestoreFieldKeys, Json.topKeys,
        htl, htlo, htb, hts]

end Uplink
